import Mathlib

/-
Verification of the leaf image analysis pipeline of PlantAppFlask
(image_processor.py and the confidence gate of predict.py).

Modelling conventions:
* Machine bytes and 8-bit channels are Fin 256; pixel grids are functions
  from Fin-indexed coordinates, so dimension contracts are enforced by type.
* OpenCV library primitives whose internals are outside this repository
  (imdecode, denoising, resize, Lab conversions, CLAHE, filter2D, blur,
  Canny) are fields of a parameter structure CVPrims; their type records
  their documented shape contract (same or target dimensions, 8-bit in and
  out).  Every theorem quantifies over the primitives, so it holds for the
  real library functions in particular.
* The BGR to HSV hue channel and the 180-bin hue histogram are modelled
  concretely, following the documented OpenCV formulas, because the health
  claims depend on their arithmetic.
* Python float arithmetic is modelled with exact rationals; round(x, 2) is
  modelled as round half to even on rationals.
* The (value, error) pair convention of the source is modelled as
  Except String.
-/

namespace PlantApp

/-- Eight-bit channel or byte value. -/
abbrev Byte := Fin 256

/-- Three-channel pixel; the meaning of the channels (BGR, RGB, Lab, HSV)
depends on the color space the surrounding code is working in, exactly as
with the untagged numpy arrays of the source. -/
structure Px where
  c1 : Byte
  c2 : Byte
  c3 : Byte

/-- Three-channel image of width w and height h, indexed row then column. -/
abbrev Img3 (w h : Nat) := Fin h → Fin w → Px

/-- Single-channel image of width w and height h. -/
abbrev Plane (w h : Nat) := Fin h → Fin w → Byte

/-- Result of cv2.imdecode with IMREAD_COLOR when it succeeds: a
three-channel BGR image of at least 1 pixel in each dimension (the stored
width is w + 1 and height is h + 1). -/
structure Decoded where
  w : Nat
  h : Nat
  img : Img3 (w + 1) (h + 1)

/-- The error string returned by every entry point of image_processor.py
when cv2.imdecode returns None. -/
def decodeFailMsg : String := "Failed to load image"

/-- The OpenCV library primitives used by image_processor.py.  Each field
is one cv2 function; the types record the shape contracts of the library
(dimension preserving, or producing the requested target size, 8-bit
values in and out).  The pipeline definitions below are parametric in this
structure, so every theorem about them holds for any implementation of the
primitives, the real OpenCV one included. -/
structure CVPrims where
  imdecode : List Byte → Option Decoded
  denoiseColored : (hLum hColor tws sws : Nat) → {w h : Nat} → Img3 w h → Img3 w h
  resize : (tw th : Nat) → {w h : Nat} → Img3 w h → Img3 tw th
  bgr2lab : {w h : Nat} → Img3 w h → Img3 w h
  lab2bgr : {w h : Nat} → Img3 w h → Img3 w h
  clahe : (clipLimit : Rat) → (tgw tgh : Nat) → {w h : Nat} → Plane w h → Plane w h
  filter2D : (Fin 3 → Fin 3 → Int) → {w h : Nat} → Img3 w h → Img3 w h
  bgr2gray : {w h : Nat} → Img3 w h → Plane w h
  gaussianBlur : (kw kh : Nat) → (sigma : Rat) → {w h : Nat} → Plane w h → Plane w h
  canny : (lo hi : Rat) → {w h : Nat} → Plane w h → Plane w h

/-- The mutable state of the ImageProcessor class: the single attribute
target_size set in the constructor. -/
structure ImageProcessor where
  target_w : Nat
  target_h : Nat

/-- The constructor of ImageProcessor: self.target_size = (224, 224). -/
def ImageProcessor.init : ImageProcessor := ⟨224, 224⟩

/-- cv2.cvtColor with COLOR_BGR2RGB: swap the first and third channels. -/
def bgr2rgb {w h : Nat} (img : Img3 w h) : Img3 w h :=
  fun i j => ⟨(img i j).c3, (img i j).c2, (img i j).c1⟩

/-- The model-input tensor produced by preprocess_image: a w × h grid of
three rational values (one per channel). -/
structure NormTensor where
  w : Nat
  h : Nat
  data : Fin h → Fin w → Rat × Rat × Rat

/-- Division of one pixel by 255.0, as in img_resized / 255.0. -/
def normalizePx (p : Px) : Rat × Rat × Rat :=
  ((p.c1 : Rat) / 255, (p.c2 : Rat) / 255, (p.c3 : Rat) / 255)

/-- Body of preprocess_image after a successful decode: BGR to RGB, then
fastNlMeansDenoisingColored(img, None, 10, 10, 7, 21), then resize to
self.target_size, then division by 255.0. -/
def preprocessDecoded (P : CVPrims) (proc : ImageProcessor) (d : Decoded) : NormTensor :=
  let img_rgb := bgr2rgb d.img
  let img_denoised := P.denoiseColored 10 10 7 21 img_rgb
  let img_resized := P.resize proc.target_w proc.target_h img_denoised
  ⟨proc.target_w, proc.target_h, fun i j => normalizePx (img_resized i j)⟩

/-- preprocess_image of image_processor.py. -/
def preprocess_image (P : CVPrims) (proc : ImageProcessor) (bytes : List Byte) :
    Except String NormTensor :=
  match P.imdecode bytes with
  | none => Except.error decodeFailMsg
  | some d => Except.ok (preprocessDecoded P proc d)

/-- cv2.split on a three-channel image. -/
def split3 {w h : Nat} (img : Img3 w h) : Plane w h × Plane w h × Plane w h :=
  (fun i j => (img i j).c1, fun i j => (img i j).c2, fun i j => (img i j).c3)

/-- cv2.merge of three single-channel planes. -/
def merge3 {w h : Nat} (p1 p2 p3 : Plane w h) : Img3 w h :=
  fun i j => ⟨p1 i j, p2 i j, p3 i j⟩

/-- The sharpening kernel of enhance_image: center 9, all eight
neighbors -1. -/
def sharpenKernel : Fin 3 → Fin 3 → Int :=
  fun i j => if i.val = 1 ∧ j.val = 1 then 9 else -1

/-- The Lab conversion step of enhance_image: lab = cvtColor(img, BGR2LAB). -/
def enhanceLab (P : CVPrims) (d : Decoded) : Img3 (d.w + 1) (d.h + 1) :=
  P.bgr2lab d.img

/-- The CLAHE-and-merge step of enhance_image: split the Lab image, apply
createCLAHE(clipLimit=2.0, tileGridSize=(8,8)) to the l channel, merge
back with the untouched a and b channels. -/
def enhanceLabEnhanced (P : CVPrims) (d : Decoded) : Img3 (d.w + 1) (d.h + 1) :=
  let lab := enhanceLab P d
  let l := (split3 lab).1
  let a := (split3 lab).2.1
  let b := (split3 lab).2.2
  let l_enhanced := P.clahe 2 8 8 l
  merge3 l_enhanced a b

/-- Body of enhance_image after a successful decode: CLAHE on the Lab
lightness channel, conversion back to BGR, then filter2D with the
sharpening kernel. -/
def enhanceDecoded (P : CVPrims) (d : Decoded) : Img3 (d.w + 1) (d.h + 1) :=
  let img_enhanced := P.lab2bgr (enhanceLabEnhanced P d)
  P.filter2D sharpenKernel img_enhanced

/-- enhance_image of image_processor.py. -/
def enhance_image (P : CVPrims) (bytes : List Byte) : Except String Decoded :=
  match P.imdecode bytes with
  | none => Except.error decodeFailMsg
  | some d => Except.ok ⟨d.w, d.h, enhanceDecoded P d⟩

/-- The edge map returned by detect_edges: a single-channel grid with the
spatial dimensions of the decoded image. -/
structure EdgeMap where
  w : Nat
  h : Nat
  pix : Plane (w + 1) (h + 1)

/-- Body of detect_edges after a successful decode: grayscale conversion,
GaussianBlur with a 5 × 5 kernel and sigma 0, then Canny with thresholds
50 and 150. -/
def detectEdgesDecoded (P : CVPrims) (d : Decoded) : Plane (d.w + 1) (d.h + 1) :=
  let gray := P.bgr2gray d.img
  let blurred := P.gaussianBlur 5 5 0 gray
  P.canny 50 150 blurred

/-- detect_edges of image_processor.py. -/
def detect_edges (P : CVPrims) (bytes : List Byte) : Except String EdgeMap :=
  match P.imdecode bytes with
  | none => Except.error decodeFailMsg
  | some d => Except.ok ⟨d.w, d.h, detectEdgesDecoded P d⟩

/-- The hue channel of cv2.cvtColor with COLOR_BGR2HSV on an 8-bit BGR
pixel, following the documented OpenCV formula: V = max, with hue 0 when
max = min, otherwise the hue angle in degrees halved into the range
[0, 180). -/
def hueOfBgr (p : Px) : Fin 180 :=
  let b : Int := p.c1.val
  let g : Int := p.c2.val
  let r : Int := p.c3.val
  let v := max r (max g b)
  let mn := min r (min g b)
  let dv := v - mn
  if dv = 0 then ⟨0, by norm_num⟩
  else
    let hdeg : Rat :=
      if v = r then 60 * ((g : Rat) - (b : Rat)) / (dv : Rat)
      else if v = g then 120 + 60 * ((b : Rat) - (r : Rat)) / (dv : Rat)
      else 240 + 60 * ((r : Rat) - (g : Rat)) / (dv : Rat)
    let hpos := if hdeg < 0 then hdeg + 360 else hdeg
    ⟨(round (hpos / 2)).toNat % 180, Nat.mod_lt _ (by norm_num)⟩

/-- cv2.calcHist([hsv], [0], None, [180], [0, 180]): bin k counts the
pixels of the decoded image whose hue channel equals k. -/
def h_hist (d : Decoded) (k : Fin 180) : Nat :=
  (Finset.univ.filter fun ij : Fin (d.h + 1) × Fin (d.w + 1) =>
    hueOfBgr (d.img ij.1 ij.2) = k).card

/-- np.sum(h_hist[lo:hi]): the histogram mass of the bins in [lo, hi). -/
def histSlice (d : Decoded) (lo hi : Nat) : Nat :=
  ∑ k : Fin 180, if lo ≤ k.val ∧ k.val < hi then h_hist d k else 0

/-- np.sum(h_hist): the total histogram mass. -/
def histTotal (d : Decoded) : Nat :=
  ∑ k : Fin 180, h_hist d k

/-- green_ratio = np.sum(h_hist[35:85]) / np.sum(h_hist). -/
def green_ratio (d : Decoded) : Rat :=
  (histSlice d 35 85 : Rat) / (histTotal d : Rat)

/-- yellow_ratio = np.sum(h_hist[15:35]) / np.sum(h_hist). -/
def yellow_ratio (d : Decoded) : Rat :=
  (histSlice d 15 35 : Rat) / (histTotal d : Rat)

/-- health_score = float(min(100, max(0, green_ratio * 100 - yellow_ratio * 50))). -/
def health_score_raw (d : Decoded) : Rat :=
  min 100 (max 0 (green_ratio d * 100 - yellow_ratio d * 50))

/-- Python round to the nearest integer, ties to even. -/
def pyRound (q : Rat) : Int :=
  let f := ⌊q⌋
  let r := q - (f : Rat)
  if r < 1 / 2 then f
  else if 1 / 2 < r then f + 1
  else if f % 2 = 0 then f else f + 1

/-- Python round(x, 2): round to two decimal places. -/
def pyRound2 (q : Rat) : Rat := ((pyRound (q * 100) : Int) : Rat) / 100

/-- The record returned by analyze_leaf_health. -/
structure HealthAnalysis where
  health_score : Rat
  green_percentage : Rat
  yellow_brown_percentage : Rat
  potential_issue : Bool

/-- Body of analyze_leaf_health after a successful decode: the hue
histogram ratios, the clamped health score, and the dictionary with every
numeric entry rounded to two decimals and potential_issue set to
yellow_ratio > 0.3. -/
def analyzeDecoded (d : Decoded) : HealthAnalysis :=
  { health_score := pyRound2 (health_score_raw d)
    green_percentage := pyRound2 (green_ratio d * 100)
    yellow_brown_percentage := pyRound2 (yellow_ratio d * 100)
    potential_issue := decide (yellow_ratio d > 3 / 10) }

/-- analyze_leaf_health of image_processor.py. -/
def analyze_leaf_health (P : CVPrims) (bytes : List Byte) : Except String HealthAnalysis :=
  match P.imdecode bytes with
  | none => Except.error decodeFailMsg
  | some d => Except.ok (analyzeDecoded d)

/-- np.max of a list of probabilities; None models the numpy error on an
empty vector. -/
def np_max (xs : List Rat) : Option Rat :=
  match xs with
  | [] => none
  | x :: rest => some (rest.foldl max x)

/-- get_confidence_threshold of image_processor.py: the display-trust
gate, returning False (not trusted) when the maximum confidence is below
0.6. -/
def get_confidence_threshold (predictions : List Rat) : Option (Bool × Rat) :=
  match np_max predictions with
  | none => none
  | some max_confidence =>
      if max_confidence < 3 / 5 then some (false, max_confidence)
      else some (true, max_confidence)

/-- The unknown-plant gate of predict_disease in predict.py: the top
confidence is rejected as an unknown plant exactly when it is below 0.5. -/
def predict_is_unknown (confidence : Rat) : Bool := decide (confidence < 1 / 2)

/-- The ImageProcessor methods with the object state threaded explicitly:
enhance_image reads and writes no attribute, so the state passes through
unchanged. -/
def enhanceCall (P : CVPrims) (s : ImageProcessor) (bytes : List Byte) :
    ImageProcessor × Except String Decoded :=
  (s, enhance_image P bytes)

/-- detect_edges with the object state threaded explicitly; the method
reads and writes no attribute. -/
def detectEdgesCall (P : CVPrims) (s : ImageProcessor) (bytes : List Byte) :
    ImageProcessor × Except String EdgeMap :=
  (s, detect_edges P bytes)

/-- analyze_leaf_health with the object state threaded explicitly; the
method reads and writes no attribute. -/
def analyzeHealthCall (P : CVPrims) (s : ImageProcessor) (bytes : List Byte) :
    ImageProcessor × Except String HealthAnalysis :=
  (s, analyze_leaf_health P bytes)

/-- Specification-side definition of the preprocessing color step (section
4.2 step 1): convert the decode color order to canonical RGB. -/
def specColorStep {w h : Nat} (img : Img3 w h) : Img3 w h := bgr2rgb img

/-- Specification-side definition of the denoising step (section 4.2
step 2): non-local-means denoising, strength 10 for luminance and color,
7 by 7 template window, 21 by 21 search window. -/
def specDenoiseStep (P : CVPrims) {w h : Nat} (img : Img3 w h) : Img3 w h :=
  P.denoiseColored 10 10 7 21 img

/-- Specification-side definition of the resize step (section 4.2 step 3):
stretch to the configured target size. -/
def specResizeStep (P : CVPrims) (proc : ImageProcessor) {w h : Nat} (img : Img3 w h) :
    Img3 proc.target_w proc.target_h :=
  P.resize proc.target_w proc.target_h img

/-- Specification-side definition of the scaling step (section 4.2
step 4): scale every 0 to 255 value linearly into [0, 1]. -/
def specScaleStep {w h : Nat} (img : Img3 w h) : NormTensor :=
  ⟨w, h, fun i j => normalizePx (img i j)⟩

/-- Specification-side preprocessing path: the four steps of section 4.2
composed in order. -/
def specPreprocess (P : CVPrims) (proc : ImageProcessor) (d : Decoded) : NormTensor :=
  specScaleStep (specResizeStep P proc (specDenoiseStep P (specColorStep d.img)))

/-- Specification-side clamp of a value between a lower and an upper
bound. -/
def specClamp (lo hi x : Rat) : Rat := min hi (max lo x)

/-- Specification-side green ratio (section 4.4 item 4): the histogram
mass of the hue band [35, 85) divided by the total histogram mass. -/
def specGreenRatio (d : Decoded) : Rat :=
  (((Finset.univ.filter fun k : Fin 180 => 35 ≤ k.val ∧ k.val < 85).sum
      fun k => (h_hist d k : Rat))) /
    (Finset.univ.sum fun k : Fin 180 => (h_hist d k : Rat))

/-- Specification-side yellow ratio (section 4.4 item 5): the histogram
mass of the hue band [15, 35) divided by the total histogram mass. -/
def specYellowRatio (d : Decoded) : Rat :=
  (((Finset.univ.filter fun k : Fin 180 => 15 ≤ k.val ∧ k.val < 35).sum
      fun k => (h_hist d k : Rat))) /
    (Finset.univ.sum fun k : Fin 180 => (h_hist d k : Rat))

/-- A rational triple lies in the unit interval componentwise. -/
def inUnitTriple (v : Rat × Rat × Rat) : Prop :=
  0 ≤ v.1 ∧ v.1 ≤ 1 ∧ 0 ≤ v.2.1 ∧ v.2.1 ≤ 1 ∧ 0 ≤ v.2.2 ∧ v.2.2 ≤ 1

/-- A concrete 1 by 1 all-black decoded image, used to exercise the
pipeline on the degenerate smallest decode result. -/
def trivDecoded : Decoded := ⟨0, 0, fun _ _ => ⟨0, 0, 0⟩⟩

/-- A concrete instance of the OpenCV primitives used to evaluate the
parametric theorems on closed inputs: decoding fails on the empty buffer
and yields the 1 by 1 black image otherwise, and every filter is the
identity in its dimension class. -/
def trivPrims : CVPrims where
  imdecode := fun bs =>
    match bs with
    | [] => none
    | _ :: _ => some trivDecoded
  denoiseColored := fun _ _ _ _ {_w _h} img => img
  resize := fun _ _ {_w _h} _ => fun _ _ => ⟨0, 0, 0⟩
  bgr2lab := fun {_w _h} img => img
  lab2bgr := fun {_w _h} img => img
  clahe := fun _ _ _ {_w _h} p => p
  filter2D := fun _ {_w _h} img => img
  bgr2gray := fun {_w _h} img => fun i j => (img i j).c2
  gaussianBlur := fun _ _ _ {_w _h} p => p
  canny := fun _ _ {_w _h} p => p

/-- A concrete nonempty byte buffer (one zero byte). -/
def bytes0 : List Byte := [0]

/-- The tensor produced by preprocess_image under trivPrims on any
nonempty buffer. -/
def t0 : NormTensor := ⟨224, 224, fun _ _ => normalizePx ⟨0, 0, 0⟩⟩

/-- Dividing an 8-bit channel by 255 lands in the unit interval. -/
lemma normalizePx_inUnit (p : Px) : inUnitTriple (normalizePx p) := by
  have hb : ∀ c : Byte, 0 ≤ (c : Rat) / 255 ∧ (c : Rat) / 255 ≤ 1 := by
    intro c
    constructor
    · positivity
    · rw [div_le_one (by norm_num)]
      exact_mod_cast Nat.le_of_lt_succ c.isLt
  exact ⟨(hb p.c1).1, (hb p.c1).2, (hb p.c2).1, (hb p.c2).2, (hb p.c3).1, (hb p.c3).2⟩

/-- The hue channel of a black pixel is 0. -/
lemma hueOfBgr_black : (hueOfBgr ⟨0, 0, 0⟩).val = 0 := by decide

/-- The total hue histogram mass is the pixel count of the image. -/
lemma histTotal_eq_pixels (d : Decoded) : histTotal d = (d.w + 1) * (d.h + 1) := by
  have h1 : (Finset.univ : Finset (Fin (d.h + 1) × Fin (d.w + 1))).card =
      ∑ k : Fin 180, (Finset.univ.filter fun ij : Fin (d.h + 1) × Fin (d.w + 1) =>
        hueOfBgr (d.img ij.1 ij.2) = k).card :=
    Finset.card_eq_sum_card_fiberwise fun x _ => Finset.mem_univ _
  simp only [histTotal, h_hist]
  rw [← h1]
  simp [Finset.card_univ, Nat.mul_comm]

/-- Rounding a value to two decimals yields a multiple of one hundredth. -/
lemma pyRound2_den (q : Rat) : (pyRound2 q * 100).den = 1 := by
  unfold pyRound2
  rw [div_mul_cancel₀ _ (by norm_num : (100 : Rat) ≠ 0)]
  exact Rat.den_intCast _

/-- Rounding zero to two decimals gives zero. -/
lemma pyRound2_zero : pyRound2 0 = 0 := by
  simp [pyRound2, pyRound]

/-- Claim C1: for every decoded image, analyze_leaf_health computes
green_ratio as the hue histogram mass in the band [35, 85) divided by the
total mass, yellow_ratio as the mass in [15, 35) divided by the total
mass, the raw health score as clamp(green_ratio * 100 - yellow_ratio * 50,
0, 100), and potential_issue as yellow_ratio > 0.3; all of them are
deterministic pure functions of the 180-bin hue histogram (two images with
equal histograms get equal analyses). -/
theorem analyze_health_formulas (d : Decoded) :
    green_ratio d = specGreenRatio d ∧
    yellow_ratio d = specYellowRatio d ∧
    health_score_raw d = specClamp 0 100 (green_ratio d * 100 - yellow_ratio d * 50) ∧
    (analyzeDecoded d).potential_issue = decide (yellow_ratio d > 3 / 10) ∧
    ∀ d2 : Decoded, h_hist d = h_hist d2 → analyzeDecoded d = analyzeDecoded d2 := by
  refine ⟨?_, ?_, rfl, rfl, ?_⟩
  · simp [green_ratio, specGreenRatio, histSlice, histTotal, Finset.sum_filter,
      Nat.cast_sum, apply_ite]
  · simp [yellow_ratio, specYellowRatio, histSlice, histTotal, Finset.sum_filter,
      Nat.cast_sum, apply_ite]
  · intro d2 hh
    simp only [analyzeDecoded, health_score_raw, green_ratio, yellow_ratio,
      histSlice, histTotal, hh]

/-- Witness for C1 at the concrete 1 by 1 black image. -/
theorem analyze_health_formulas_witness :
    green_ratio trivDecoded = specGreenRatio trivDecoded ∧
    analyzeDecoded trivDecoded = analyzeDecoded trivDecoded :=
  ⟨(analyze_health_formulas trivDecoded).1,
   (analyze_health_formulas trivDecoded).2.2.2.2 trivDecoded rfl⟩

/-- Claim C2: whenever preprocess_image succeeds on the default processor,
the resulting tensor is exactly 224 by 224 (by three channels), with every
value in the unit interval, for every decoded input shape. -/
theorem preprocess_shape_range (P : CVPrims) (bytes : List Byte) (t : NormTensor)
    (ht : preprocess_image P ImageProcessor.init bytes = Except.ok t) :
    t.w = 224 ∧ t.h = 224 ∧ ∀ i j, inUnitTriple (t.data i j) := by
  cases hdec : P.imdecode bytes with
  | none => simp [preprocess_image, hdec] at ht
  | some d =>
      simp only [preprocess_image, hdec, Except.ok.injEq] at ht
      subst ht
      exact ⟨rfl, rfl, fun i j => normalizePx_inUnit _⟩

/-- Witness for C2: the preprocessing hypothesis holds at trivPrims on a
one-byte buffer. -/
theorem preprocess_shape_range_witness :
    preprocess_image trivPrims ImageProcessor.init bytes0 = Except.ok t0 ∧
    t0.w = 224 ∧ t0.h = 224 :=
  ⟨rfl, (preprocess_shape_range trivPrims bytes0 t0 rfl).1,
    (preprocess_shape_range trivPrims bytes0 t0 rfl).2.1⟩

/-- Claim C3: the two confidence gates are distinct comparisons: a
probability vector with maximum 0.55 is reported not trusted by the 0.60
gate of get_confidence_threshold, while the 0.50 unknown-plant gate of
predict_disease does not reject it. -/
theorem confidence_gate_two_thresholds (predictions : List Rat)
    (hmax : np_max predictions = some (11 / 20)) :
    get_confidence_threshold predictions = some (false, 11 / 20) ∧
    predict_is_unknown (11 / 20) = false := by
  constructor
  · simp only [get_confidence_threshold, hmax]
    norm_num
  · simp only [predict_is_unknown, decide_eq_false_iff_not, not_lt]
    norm_num

/-- Witness for C3 at the singleton vector with value 0.55. -/
theorem confidence_gate_two_thresholds_witness :
    get_confidence_threshold [11 / 20] = some (false, 11 / 20) ∧
    predict_is_unknown (11 / 20) = false :=
  confidence_gate_two_thresholds [11 / 20] rfl

/-- Claim C4: on the empty byte buffer every entry point returns the
decode failure signal and nothing else, provided the decoder rejects the
empty buffer as the library does. -/
theorem empty_buffer_decode_error (P : CVPrims) (hdec : P.imdecode [] = none) :
    preprocess_image P ImageProcessor.init [] = Except.error decodeFailMsg ∧
    enhance_image P [] = Except.error decodeFailMsg ∧
    detect_edges P [] = Except.error decodeFailMsg ∧
    analyze_leaf_health P [] = Except.error decodeFailMsg := by
  simp [preprocess_image, enhance_image, detect_edges, analyze_leaf_health, hdec]

/-- Witness for C4 under the concrete primitive instance. -/
theorem empty_buffer_decode_error_witness :
    preprocess_image trivPrims ImageProcessor.init [] = Except.error decodeFailMsg ∧
    enhance_image trivPrims [] = Except.error decodeFailMsg ∧
    detect_edges trivPrims [] = Except.error decodeFailMsg ∧
    analyze_leaf_health trivPrims [] = Except.error decodeFailMsg :=
  empty_buffer_decode_error trivPrims rfl

/-- Claim C5: whenever decode succeeds, each of the four transforms
returns its artifact (never the error branch), for every decoded image,
the 1 by 1 degenerate one included. -/
theorem decoded_transforms_total (P : CVPrims) (bytes : List Byte) (d : Decoded)
    (hdec : P.imdecode bytes = some d) :
    preprocess_image P ImageProcessor.init bytes =
      Except.ok (preprocessDecoded P ImageProcessor.init d) ∧
    enhance_image P bytes = Except.ok ⟨d.w, d.h, enhanceDecoded P d⟩ ∧
    detect_edges P bytes = Except.ok ⟨d.w, d.h, detectEdgesDecoded P d⟩ ∧
    analyze_leaf_health P bytes = Except.ok (analyzeDecoded d) := by
  simp [preprocess_image, enhance_image, detect_edges, analyze_leaf_health, hdec]

/-- Witness for C5 at the degenerate 1 by 1 decoded image of trivPrims. -/
theorem decoded_transforms_total_witness :
    preprocess_image trivPrims ImageProcessor.init bytes0 =
      Except.ok (preprocessDecoded trivPrims ImageProcessor.init trivDecoded) ∧
    enhance_image trivPrims bytes0 =
      Except.ok ⟨trivDecoded.w, trivDecoded.h, enhanceDecoded trivPrims trivDecoded⟩ ∧
    detect_edges trivPrims bytes0 =
      Except.ok ⟨trivDecoded.w, trivDecoded.h, detectEdgesDecoded trivPrims trivDecoded⟩ ∧
    analyze_leaf_health trivPrims bytes0 = Except.ok (analyzeDecoded trivDecoded) :=
  decoded_transforms_total trivPrims bytes0 trivDecoded rfl

/-- Claim C6: the pipeline operations are stateless and deterministic:
with the object state threaded explicitly, each call leaves the state
unchanged, and a second call on the byte-identical input (in the state
left by the first call) yields the identical output. -/
theorem pipeline_stateless_deterministic (P : CVPrims) (s : ImageProcessor)
    (bytes : List Byte) :
    (enhanceCall P s bytes).1 = s ∧
    (detectEdgesCall P s bytes).1 = s ∧
    (analyzeHealthCall P s bytes).1 = s ∧
    (enhanceCall P (enhanceCall P s bytes).1 bytes).2 = (enhanceCall P s bytes).2 ∧
    (detectEdgesCall P (detectEdgesCall P s bytes).1 bytes).2 =
      (detectEdgesCall P s bytes).2 ∧
    (analyzeHealthCall P (analyzeHealthCall P s bytes).1 bytes).2 =
      (analyzeHealthCall P s bytes).2 :=
  ⟨rfl, rfl, rfl, rfl, rfl, rfl⟩

/-- Claim C7: preprocess_image applies exactly the four specified steps in
order: BGR to RGB conversion, non-local-means denoising with strengths 10
and 10, template window 7 and search window 21, resize to the target
size, then scaling by 1/255. -/
theorem preprocess_step_order (P : CVPrims) (proc : ImageProcessor) (bytes : List Byte)
    (d : Decoded) (hdec : P.imdecode bytes = some d) :
    preprocessDecoded P proc d =
      specScaleStep (specResizeStep P proc (specDenoiseStep P (specColorStep d.img))) ∧
    preprocess_image P proc bytes = Except.ok (specPreprocess P proc d) := by
  refine ⟨rfl, ?_⟩
  simp only [preprocess_image, hdec]
  rfl

/-- Witness for C7 at trivPrims on a one-byte buffer. -/
theorem preprocess_step_order_witness :
    preprocess_image trivPrims ImageProcessor.init bytes0 =
      Except.ok (specPreprocess trivPrims ImageProcessor.init trivDecoded) :=
  (preprocess_step_order trivPrims ImageProcessor.init bytes0 trivDecoded rfl).2

/-- Claim C8: in enhance_image, CLAHE with clip limit 2 and an 8 by 8 tile
grid acts on the lightness channel only: in the merged Lab image the first
channel is the CLAHE output and the two chroma channels agree pointwise
with the channels of the original Lab image. -/
theorem clahe_lightness_only (P : CVPrims) (d : Decoded)
    (i : Fin (d.h + 1)) (j : Fin (d.w + 1)) :
    (enhanceLabEnhanced P d i j).c1 = P.clahe 2 8 8 (split3 (enhanceLab P d)).1 i j ∧
    (enhanceLabEnhanced P d i j).c2 = (enhanceLab P d i j).c2 ∧
    (enhanceLabEnhanced P d i j).c3 = (enhanceLab P d i j).c3 :=
  ⟨rfl, rfl, rfl⟩

/-- Claim C9: the total hue histogram mass equals the pixel count of the
decoded image, which is positive, so the ratio denominators are never a
division by zero; and on an all-black decoded image the reported
green_percentage is exactly 0. -/
theorem black_image_health (d : Decoded) :
    histTotal d = (d.w + 1) * (d.h + 1) ∧
    0 < histTotal d ∧
    ((∀ i j, d.img i j = ⟨0, 0, 0⟩) → (analyzeDecoded d).green_percentage = 0) := by
  refine ⟨histTotal_eq_pixels d, ?_, ?_⟩
  · rw [histTotal_eq_pixels d]
    exact Nat.mul_pos (Nat.succ_pos _) (Nat.succ_pos _)
  · intro hb
    have hsl : histSlice d 35 85 = 0 := by
      apply Finset.sum_eq_zero
      intro k _
      by_cases hk : 35 ≤ k.val ∧ k.val < 85
      · rw [if_pos hk]
        rw [h_hist, Finset.card_eq_zero, Finset.filter_eq_empty_iff]
        intro ij _
        rw [hb ij.1 ij.2]
        intro he
        have : (hueOfBgr ⟨0, 0, 0⟩).val = k.val := congrArg Fin.val he
        rw [hueOfBgr_black] at this
        omega
      · rw [if_neg hk]
    have hgr : green_ratio d = 0 := by
      rw [green_ratio, hsl]
      simp
    simp only [analyzeDecoded, hgr, zero_mul]
    exact pyRound2_zero

/-- Witness for C9 at the concrete 1 by 1 black decoded image. -/
theorem black_image_health_witness :
    histTotal trivDecoded = (trivDecoded.w + 1) * (trivDecoded.h + 1) ∧
    (analyzeDecoded trivDecoded).green_percentage = 0 :=
  ⟨(black_image_health trivDecoded).1,
   (black_image_health trivDecoded).2.2 fun _ _ => rfl⟩

/-- Claim C10: every successful analyze_leaf_health result has its three
numeric fields rounded to two decimal places: each equals the half-even
rounding of the corresponding raw value, and each is a multiple of one
hundredth. -/
theorem analysis_two_decimal_rounding (P : CVPrims) (bytes : List Byte)
    (a : HealthAnalysis) (ha : analyze_leaf_health P bytes = Except.ok a) :
    (∃ d : Decoded, P.imdecode bytes = some d ∧
      a.health_score = pyRound2 (health_score_raw d) ∧
      a.green_percentage = pyRound2 (green_ratio d * 100) ∧
      a.yellow_brown_percentage = pyRound2 (yellow_ratio d * 100)) ∧
    (a.health_score * 100).den = 1 ∧
    (a.green_percentage * 100).den = 1 ∧
    (a.yellow_brown_percentage * 100).den = 1 := by
  cases hdec : P.imdecode bytes with
  | none => simp [analyze_leaf_health, hdec] at ha
  | some d =>
      simp only [analyze_leaf_health, hdec, Except.ok.injEq] at ha
      subst ha
      exact ⟨⟨d, rfl, rfl, rfl, rfl⟩, pyRound2_den _, pyRound2_den _, pyRound2_den _⟩

/-- Witness for C10 under the concrete primitive instance. -/
theorem analysis_two_decimal_rounding_witness :
    ((analyzeDecoded trivDecoded).health_score * 100).den = 1 ∧
    ((analyzeDecoded trivDecoded).green_percentage * 100).den = 1 :=
  ⟨(analysis_two_decimal_rounding trivPrims bytes0 (analyzeDecoded trivDecoded) rfl).2.1,
   (analysis_two_decimal_rounding trivPrims bytes0 (analyzeDecoded trivDecoded) rfl).2.2.1⟩

end PlantApp
